import Mathlib

/-!
Shallow embedding of the core analytical and stateful engine of the
operational-monitoring agent repository:

* `correlate_errors_across_services` (src/agents/agent_tools/correlate_errors.py):
  dependency graph, transitive-descendant traversal, problematic-service
  threshold filter, root-cause / cascading-failure classification.
* `check_recent_deployment` (src/agents/agent_tools/check_recent_deployment.py):
  before/after error delta, percentage and impact classification.
* `get_baseline_error_rates` (src/agents/smartAssistant.py): baseline window
  and averaging arithmetic over date-histogram buckets.
* `AgentFindingsStore.store_finding` (src/agents/agent_tools/agent_findings_store.py).
* The approval lifecycle portion of `lambda_handler` (src/agents/smartAssistant.py,
  lines 674-906): status guard, conditional update with bounded retry,
  remediation execution and the follow-up status updates.

External collaborators (the document store, the remediation agent) are modelled
by explicit outcome parameters: each fallible call site consumes an outcome
supplied by an `Env` record, so a run of the handler is a pure function of the
finding, the requested action and the environment.
-/

namespace OpsCore

/-! ## Dependency graph (`correlate_errors.py`, lines 76-94)

`service_dependencies` is a dict mapping a service name to its list of
dependency names; the nx.DiGraph gets a node for every key and an edge
service -> dep for every dependency (dep names become nodes too). -/

/-- The `service_dependencies` dict: service name to its dependency list. -/
abbrev Graph := List (String × List String)

/-- Outgoing edges of `s`: its configured dependency list (empty when `s` is
not a key, e.g. a dependency name that is not itself a configured service). -/
def neighbors (g : Graph) (s : String) : List String :=
  (g.lookup s).getD []

/-- The node set of the nx.DiGraph: every configured service plus every
dependency name mentioned (add_node + add_edge both create nodes). -/
def graphNodes (g : Graph) : List String :=
  g.flatMap (fun p => p.1 :: p.2)

/-- Add a node to the visited list unless already seen (the visited-set
discipline of the breadth-first reachability traversal). -/
def insertNew (acc : List String) (d : String) : List String :=
  if d ∈ acc then acc else acc ++ [d]

/-- One traversal round: every visited node contributes its unvisited
neighbors. -/
def expand (g : Graph) (v : List String) : List String :=
  v.foldl (fun acc x => (neighbors g x).foldl insertNew acc) v

/-- Iterate `expand` a given number of rounds. -/
def iterExpand (g : Graph) : Nat → List String → List String
  | 0, v => v
  | n + 1, v => expand g (iterExpand g n v)

/-- All nodes reachable from `s` (including `s`), computed by iterating the
round function enough times to reach the fixpoint on any graph, cyclic ones
included. -/
def reachableFrom (g : Graph) (s : String) : List String :=
  iterExpand g (graphNodes g).length [s]

/-- `nx.descendants(dependency_graph, service)`: all nodes transitively
reachable from `s`, excluding `s` itself; the `except nx.NetworkXError`
branch of the source maps a service absent from the graph to `[]`. -/
def descendants (g : Graph) (s : String) : List String :=
  if s ∈ graphNodes g then (reachableFrom g s).filter (fun x => x ≠ s) else []

/-! ## Error correlation (`correlate_errors.py`, lines 144-241) -/

/-- One entry of the `service_errors` dict: per-service error count and
error-type breakdown extracted from the by-service aggregation buckets. -/
structure ServiceErr where
  name : String
  error_count : Nat
  error_types : List (String × Nat)
deriving Repr, DecidableEq

/-- `problematic_services`: the services whose error count meets or exceeds
the threshold (`data["error_count"] >= error_threshold`). -/
def problematic (threshold : Int) (errs : List ServiceErr) : List ServiceErr :=
  errs.filter (fun e => decide (threshold ≤ (e.error_count : Int)))

/-- Names of the problematic services (the dict keys). -/
def probNames (probs : List ServiceErr) : List String :=
  probs.map (fun e => e.name)

/-- `problematic_services[dep]` lookup (always succeeds in the source because
`dep` was filtered by membership; the default is unreachable). -/
def lookupErr (probs : List ServiceErr) (d : String) : ServiceErr :=
  (probs.find? (fun p => p.name == d)).getD ⟨d, 0, []⟩

/-- `failing_deps`: the transitive dependencies of `s` that are themselves
problematic. -/
def failingDeps (g : Graph) (probs : List ServiceErr) (s : String) : List String :=
  (descendants g s).filter (fun d => decide (d ∈ probNames probs))

/-- `dependent_services` of a root cause: the configured services whose
dependency list contains `v` (`[s for s in service_dependencies if v in
service_dependencies[s]]`). -/
def dependents (g : Graph) (v : String) : List String :=
  (g.map (fun p => p.1)).filter (fun s => decide (v ∈ neighbors g s))

/-- A record appended to `root_causes`. -/
structure RootCause where
  service : String
  error_count : Nat
  error_types : List (String × Nat)
  dependent_services : List String
deriving Repr, DecidableEq

/-- A member of a cascading failure's `failing_dependencies` list. -/
structure FailingDep where
  service : String
  error_count : Nat
  error_types : List (String × Nat)
deriving Repr, DecidableEq

/-- A record appended to `cascading_failures`. -/
structure CascadingFailure where
  service : String
  error_count : Nat
  failing_dependencies : List FailingDep
deriving Repr, DecidableEq

/-- The body of the classification loop for one problematic service. -/
def classifyOne (g : Graph) (probs : List ServiceErr) (e : ServiceErr) :
    Sum RootCause CascadingFailure :=
  let failing := failingDeps g probs e.name
  if failing.isEmpty then
    Sum.inl ⟨e.name, e.error_count, e.error_types, dependents g e.name⟩
  else
    Sum.inr ⟨e.name, e.error_count,
      failing.map (fun d => let p := lookupErr probs d; ⟨d, p.error_count, p.error_types⟩)⟩

/-- The classification loop (`for service in problematic_services:`): appends
each problematic service to exactly one of `root_causes` /
`cascading_failures`, in iteration order. -/
def classify (g : Graph) (probs : List ServiceErr) :
    List RootCause × List CascadingFailure :=
  probs.foldl (fun acc e =>
    match classifyOne g probs e with
    | Sum.inl r => (acc.1 ++ [r], acc.2)
    | Sum.inr c => (acc.1, acc.2 ++ [c])) ([], [])

/-! ## Deployment impact (`check_recent_deployment.py`, lines 217-228) -/

/-- The impact-relevant fields of one `impact_analysis` entry (the source
additionally stores the windows and a 2-decimal rounding of the percentage;
classification uses the unrounded value). -/
structure ImpactEntry where
  error_change : Int
  error_change_percent : ℚ
  impact : String
deriving Repr, DecidableEq

/-- Error delta, percentage against `max(1, before_count)` and impact
classification for one deployment event. -/
def assessImpact (before_error_count after_error_count : Nat) : ImpactEntry :=
  let error_change : Int := (after_error_count : Int) - (before_error_count : Int)
  let error_change_percent : ℚ :=
    (((after_error_count : Int) - (before_error_count : Int) : Int) : ℚ)
      / ((max 1 before_error_count : Nat) : ℚ) * 100
  let impact : String :=
    if error_change > 0 ∧ error_change_percent > 20 then "negative"
    else if error_change < 0 ∧ |error_change_percent| > 20 then "positive"
    else "none"
  ⟨error_change, error_change_percent, impact⟩

/-! ## Baseline error rates (`smartAssistant.py`, lines 203-268)

Times are modelled as integer seconds; one day is 86400 seconds. The store's
date-histogram response is modelled as the list of returned buckets, each a
(day, doc_count) pair; the histogram only materialises buckets for days that
actually contain events. -/

/-- Seconds in one day (`timedelta(days=1)`). -/
def secondsPerDay : Int := 86400

/-- The parameters of the baseline aggregation request that the claims are
about: the time range and the ERROR level filter with a per-day histogram. -/
structure BaselineQuery where
  gte : Int
  lte : Int
  level : String
  interval : String
deriving Repr, DecidableEq

/-- Query construction: `end_time = utcnow() - timedelta(days=1)`,
`start_time = end_time - timedelta(days=days)`, ERROR-level filter, per-day
date histogram. -/
def baselineQuery (now : Int) (days : Nat) : BaselineQuery :=
  let endTime := now - secondsPerDay
  let startTime := endTime - (days : Int) * secondsPerDay
  ⟨startTime, endTime, "ERROR", "day"⟩

/-- The returned baseline rates. -/
structure Baseline where
  avg_per_day : ℚ
  avg_per_hour : ℚ
  avg_per_minute : ℚ
deriving Repr, DecidableEq

/-- Averaging over the returned histogram buckets: zero result when no
buckets, otherwise total errors divided by the number of buckets (the days
that have data), then divided down to hours and minutes. -/
def baselineFromBuckets (buckets : List (Int × Nat)) : Baseline :=
  if buckets.isEmpty then ⟨0, 0, 0⟩
  else
    let total_errors : Nat := (buckets.map (fun b => b.2)).sum
    let days_with_data : Nat := buckets.length
    let avg_per_day : ℚ :=
      if days_with_data > 0 then (total_errors : ℚ) / (days_with_data : ℚ) else 0
    let avg_per_hour : ℚ := avg_per_day / 24
    let avg_per_minute : ℚ := avg_per_hour / 60
    ⟨avg_per_day, avg_per_hour, avg_per_minute⟩

/-! ## Findings store (`agent_findings_store.py`, lines 105-140)

A finding document is an association list of string fields; `store_finding`
validates, fills defaults for missing fields and indexes the document. The
fresh uuid and the current timestamp are parameters; the indexing call's
outcome is a Bool (on exception the source logs and re-raises). -/

/-- A finding document: field name / value pairs. -/
abbrev Doc := List (String × String)

/-- Whether a key is present in the document. -/
def hasKey (d : Doc) (k : String) : Bool :=
  (d.lookup k).isSome

/-- The required fields checked by `store_finding`, in validation order. -/
def requiredFields : List String :=
  ["agent_id", "finding_type", "severity", "title", "description"]

/-- `store_finding`: raises on an empty finding or a missing required field;
otherwise fills `id`, `timestamp`, `status` defaults for absent keys only and
indexes the document, returning its id. -/
def store_finding (finding : Doc) (freshId nowTs : String) (indexOk : Bool) :
    Except String (Doc × String) :=
  if finding.isEmpty then Except.error "Finding cannot be empty"
  else
    match requiredFields.find? (fun f => ! hasKey finding f) with
    | some f => Except.error ("Required field " ++ f ++ " missing from finding")
    | none =>
      let f1 := if hasKey finding "id" then finding else finding ++ [("id", freshId)]
      let f2 := if hasKey f1 "timestamp" then f1 else f1 ++ [("timestamp", nowTs)]
      let f3 := if hasKey f2 "status" then f2 else f2 ++ [("status", "pending_review")]
      if indexOk then Except.ok (f3, (f3.lookup "id").getD "")
      else Except.error "Error storing agent finding"

/-! ## Approval lifecycle (`smartAssistant.py`, lines 674-906)

The approval branch of `lambda_handler`. Every interaction with the document
store or the remediation agent is a call that can raise; the `Env` record
fixes the outcome of each call site:

* `readOk` — the initial `client.get` (line 693); on exception the source
  logs a warning and continues the process (lines 723-725).
* `firstUpdate` — per-attempt outcomes of the retry loop (lines 737-765);
  each attempt is a get of the latest version token plus a conditional
  update, and any exception counts as a failed attempt.
* `execReadOk` — the re-read of the finding before execution (line 774).
* `procUpdate` — the conditional update to `processed` before execution
  (lines 781-802); the source makes one attempt and swallows failure.
* `remediationOk` — the `monitoring_agent(action_prompt)` call (line 816).
* `completeUpdate` — the conditional update to `processed` with
  `completed_at` after execution (lines 819-841); one attempt, swallowed.
* `failUpdate` — the conditional update to `failed` in the exception handler
  (lines 846-868); one attempt, swallowed.
* `now` — the wall-clock instant written into timestamp fields. -/

/-- The mutable fields of a finding document that the handler touches. -/
structure Finding where
  status : String
  human_feedback : Option String := none
  human_approved : Option Bool := none
  updated_at : Option Nat := none
  processed_at : Option Nat := none
  completed_at : Option Nat := none
  action_response : Option String := none
  failed_at : Option Nat := none
  error_message : Option String := none
deriving Repr, DecidableEq

/-- Outcomes of the external calls made during one handler invocation. -/
structure Env where
  readOk : Bool
  firstUpdate : List Bool
  execReadOk : Bool
  procUpdate : List Bool
  remediationOk : Bool
  remediationErr : String
  remediationResponse : String
  completeUpdate : List Bool
  failUpdate : List Bool
  now : Nat
deriving Repr, DecidableEq

/-- What the handler reports to the caller: the "already in ... state" page
(lines 700-722), the "Action Processed" page (lines 872-898), or the 500
error page (lines 900-906). -/
inductive TResult where
  | alreadyHandled (status : String)
  | done (approved : Bool)
  | fatal
deriving Repr, DecidableEq

/-- Result page, finding document after the invocation, and how many times
the remediation agent was invoked. -/
structure Outcome where
  result : TResult
  finding : Finding
  remediations : Nat
deriving Repr, DecidableEq

/-- `max_retries = 3` (line 734). -/
def updateRetryBudget : Nat := 3

/-- Whether a retry loop with the given per-attempt outcomes and budget ends
in success: the source retries until an attempt succeeds or `budget`
attempts have failed, then re-raises. -/
def retrySucceeds (outcomes : List Bool) (budget : Nat) : Bool :=
  (outcomes.take budget).any id

/-- `human_feedback` written by the update (line 729). -/
def feedbackText (approved : Bool) : String :=
  if approved then "Action approved via email link."
  else "Action rejected via email link."

/-- The execution phase (lines 770-869), entered only when the action was
an approval and the status update succeeded. Returns the finding after the
phase and the number of remediation invocations. -/
def execPhase (f1 : Finding) (env : Env) : Finding × Nat :=
  if env.execReadOk then
    let f2 :=
      if env.procUpdate.headD false then
        { f1 with status := "processed", processed_at := some env.now }
      else f1
    if env.remediationOk then
      let f3 :=
        if env.completeUpdate.headD false then
          { f2 with status := "processed", completed_at := some env.now,
                    action_response := some env.remediationResponse }
        else f2
      (f3, 1)
    else
      let f3 :=
        if env.failUpdate.headD false then
          { f2 with status := "failed", failed_at := some env.now,
                    error_message := some env.remediationErr }
        else f2
      (f3, 1)
  else
    let f2 :=
      if env.failUpdate.headD false then
        { f1 with status := "failed", failed_at := some env.now,
                  error_message := some "finding read failed" }
      else f1
    (f2, 0)

/-- The approval branch of `lambda_handler` for `action in ["approve",
"reject"]`: the already-handled guard, the conditional update with bounded
retry, and (on approval) the execution phase. -/
def transition (f : Finding) (approve : Bool) (env : Env) : Outcome :=
  if env.readOk ∧ (f.status = "approved" ∨ f.status = "processed") then
    ⟨TResult.alreadyHandled f.status, f, 0⟩
  else if retrySucceeds env.firstUpdate updateRetryBudget then
    let f1 := { f with
      status := if approve then "approved" else "rejected",
      human_feedback := some (feedbackText approve),
      human_approved := some approve,
      updated_at := some env.now }
    if approve then
      let r := execPhase f1 env
      ⟨TResult.done true, r.1, r.2⟩
    else ⟨TResult.done false, f1, 0⟩
  else ⟨TResult.fatal, f, 0⟩

/-- Run a sequence of handler invocations (action, environment) against a
finding, threading the stored document. -/
def runSeq (f : Finding) : List (Bool × Env) → Finding
  | [] => f
  | (a, e) :: rest => runSeq (transition f a e).finding rest

/-- Modelled from the spec: the spec prescribes that the conflict-retry
discipline of the first conditional update (re-read the latest version and
retry, up to 3 attempts) "applies to the subsequent conditional updates to
processed or failed" as well. This variant of the execution phase applies
`retrySucceeds _ updateRetryBudget` to the `processed`, `completed` and
`failed` update sites; it exists only to be compared against `execPhase`,
which is translated from the code and consults a single attempt outcome per
site. -/
def execPhaseSpecRetry (f1 : Finding) (env : Env) : Finding × Nat :=
  if env.execReadOk then
    let f2 :=
      if retrySucceeds env.procUpdate updateRetryBudget then
        { f1 with status := "processed", processed_at := some env.now }
      else f1
    if env.remediationOk then
      let f3 :=
        if retrySucceeds env.completeUpdate updateRetryBudget then
          { f2 with status := "processed", completed_at := some env.now,
                    action_response := some env.remediationResponse }
        else f2
      (f3, 1)
    else
      let f3 :=
        if retrySucceeds env.failUpdate updateRetryBudget then
          { f2 with status := "failed", failed_at := some env.now,
                    error_message := some env.remediationErr }
        else f2
      (f3, 1)
  else
    let f2 :=
      if retrySucceeds env.failUpdate updateRetryBudget then
        { f1 with status := "failed", failed_at := some env.now,
                  error_message := some "finding read failed" }
      else f1
    (f2, 0)

/-- Modelled from the spec: `transition` with the spec's uniform retry
discipline at every conditional-update site (see `execPhaseSpecRetry`). -/
def transitionSpecRetry (f : Finding) (approve : Bool) (env : Env) : Outcome :=
  if env.readOk ∧ (f.status = "approved" ∨ f.status = "processed") then
    ⟨TResult.alreadyHandled f.status, f, 0⟩
  else if retrySucceeds env.firstUpdate updateRetryBudget then
    let f1 := { f with
      status := if approve then "approved" else "rejected",
      human_feedback := some (feedbackText approve),
      human_approved := some approve,
      updated_at := some env.now }
    if approve then
      let r := execPhaseSpecRetry f1 env
      ⟨TResult.done true, r.1, r.2⟩
    else ⟨TResult.done false, f1, 0⟩
  else ⟨TResult.fatal, f, 0⟩

/-! ## Supporting lemmas -/

/-- A successful `List.lookup` exhibits a member of the association list. -/
lemma mem_of_lookup_eq_some {a : String} {l : List (String × List String)}
    {ds : List String} (h : l.lookup a = some ds) : (a, ds) ∈ l := by
  induction l with
  | nil => simp [List.lookup] at h
  | cons p t ih =>
    rw [List.lookup] at h
    split at h
    · next heq =>
      cases h
      have ha : a = p.1 := by simpa using heq
      have hp : p = (a, p.2) := by cases p; simp [ha]
      rw [hp]
      exact List.mem_cons_self _ _
    · exact List.mem_cons_of_mem _ (ih h)

/-- Every dependency name in a neighbor list is a node of the graph. -/
lemma neighbors_subset_graphNodes (g : Graph) (x : String) :
    ∀ y ∈ neighbors g x, y ∈ graphNodes g := by
  intro y hy
  unfold neighbors at hy
  cases hl : g.lookup x with
  | none => simp [hl] at hy
  | some ds =>
    rw [hl] at hy
    simp only [Option.getD_some] at hy
    have hm := mem_of_lookup_eq_some hl
    unfold graphNodes
    exact List.mem_flatMap.mpr ⟨(x, ds), hm, List.mem_cons_of_mem _ hy⟩

/-! ## C6: deployment impact classification -/

/-- C6: for before-count `b` and after-count `a`, the analyzer computes
`delta = a - b` and `percent = delta / max(1, b) * 100`, classifies the
event `negative` iff `delta > 0` and `percent > 20`, `positive` iff
`delta < 0` and `|percent| > 20`, otherwise `none`; and the three worked
examples from the spec come out as stated. -/
theorem deployment_impact_classification (b a : Nat) :
    (assessImpact b a).error_change = (a : Int) - (b : Int) ∧
    (assessImpact b a).error_change_percent =
      (((a : Int) - (b : Int) : Int) : ℚ) / ((max 1 b : Nat) : ℚ) * 100 ∧
    ((assessImpact b a).impact = "negative" ↔
      (assessImpact b a).error_change > 0 ∧ (assessImpact b a).error_change_percent > 20) ∧
    ((assessImpact b a).impact = "positive" ↔
      (assessImpact b a).error_change < 0 ∧ |(assessImpact b a).error_change_percent| > 20) ∧
    ((assessImpact b a).impact = "none" ↔
      ¬ ((assessImpact b a).error_change > 0 ∧ (assessImpact b a).error_change_percent > 20) ∧
      ¬ ((assessImpact b a).error_change < 0 ∧ |(assessImpact b a).error_change_percent| > 20)) ∧
    (assessImpact 10 13).impact = "negative" ∧
    (assessImpact 10 7).impact = "positive" ∧
    (assessImpact 10 11).impact = "none" := by
  refine ⟨rfl, rfl, ?_, ?_, ?_, by norm_num [assessImpact], by norm_num [assessImpact],
    by norm_num [assessImpact]⟩ <;>
  · unfold assessImpact
    by_cases h1 : ((a : Int) - (b : Int) > 0 ∧
        (((a : Int) - (b : Int) : Int) : ℚ) / ((max 1 b : Nat) : ℚ) * 100 > 20)
    · simp only [h1, if_true, if_pos]
      constructor <;> intro h <;> simp_all <;> omega
    · by_cases h2 : ((a : Int) - (b : Int) < 0 ∧
          |(((a : Int) - (b : Int) : Int) : ℚ) / ((max 1 b : Nat) : ℚ) * 100| > 20)
      · simp only [h1, h2, if_false, if_true]
        constructor <;> intro h <;> simp_all
      · simp only [h1, h2, if_false]
        constructor <;> intro h <;> simp_all

/-! ## C7: inclusive threshold boundary for the problematic set -/

/-- C7: a service with error count `c` in the window appears in the
problematic set iff `c >= T`; in particular `c = T` always appears and
`c < T` never does. -/
theorem problematic_threshold_boundary (T : Int) (errs : List ServiceErr)
    (e : ServiceErr) (he : e ∈ errs) :
    (e ∈ problematic T errs ↔ T ≤ (e.error_count : Int)) ∧
    ((e.error_count : Int) = T → e ∈ problematic T errs) ∧
    ((e.error_count : Int) < T → e ∉ problematic T errs) := by
  have hiff : e ∈ problematic T errs ↔ T ≤ (e.error_count : Int) := by
    unfold problematic
    rw [List.mem_filter]
    simp [he]
  refine ⟨hiff, ?_, ?_⟩
  · intro hEq
    exact hiff.mpr (le_of_eq hEq.symm)
  · intro hLt hMem
    exact absurd (hiff.mp hMem) (not_le.mpr hLt)

/-- Witness for C7 at a concrete boundary input: count 5 with threshold 5 is
problematic. -/
theorem problematic_threshold_boundary_witness :
    (⟨"svc", 5, []⟩ : ServiceErr) ∈ problematic 5 [⟨"svc", 5, []⟩] :=
  (problematic_threshold_boundary 5 [⟨"svc", 5, []⟩] ⟨"svc", 5, []⟩
    (List.mem_singleton.mpr rfl)).2.1 rfl

/-! ## C10: store_finding validation and default filling -/

/-- Looking a present key up in an extended association list finds the
original entry. -/
lemma lookup_append_of_isSome {l : Doc} (m : Doc) {k : String}
    (h : (l.lookup k).isSome) : (l ++ m).lookup k = l.lookup k := by
  induction l with
  | nil => simp [List.lookup] at h
  | cons p t ih =>
    by_cases hb : (k == p.1)
    · simp [List.lookup, hb]
    · have h' : (t.lookup k).isSome := by simpa [List.lookup, hb] using h
      simpa [List.lookup, hb] using ih h'

/-- Appending an entry for an absent key makes it the lookup result. -/
lemma lookup_append_single_of_none {l : Doc} {k : String} (v : String)
    (h : l.lookup k = none) : (l ++ [(k, v)]).lookup k = some v := by
  induction l with
  | nil => simp [List.lookup]
  | cons p t ih =>
    by_cases hb : (k == p.1)
    · simp [List.lookup, hb] at h
    · have h' : t.lookup k = none := by simpa [List.lookup, hb] using h
      simpa [List.lookup, hb] using ih h'

/-- Appending an entry for a different key never changes a lookup. -/
lemma lookup_append_single_ne {l : Doc} {k k' : String} (v : String)
    (h : k' ≠ k) : (l ++ [(k, v)]).lookup k' = l.lookup k' := by
  have hb0 : (k' == k) = false := beq_eq_false_iff_ne.mpr h
  induction l with
  | nil => simp [List.lookup, hb0]
  | cons p t ih =>
    by_cases hb : (k' == p.1)
    · simp [List.lookup, hb]
    · simpa [List.lookup, hb] using ih

/-- A default-filling step (`if "x" not in finding: finding["x"] = d`) does
not change the lookup of any other key. -/
lemma fillStep_lookup_ne (l : Doc) (k k' v : String) (h : k' ≠ k) :
    (if hasKey l k then l else l ++ [(k, v)]).lookup k' = l.lookup k' := by
  split
  · rfl
  · exact lookup_append_single_ne v h

/-- A default-filling step makes its own key present: with the original
value when the key was present, with the default otherwise. -/
lemma fillStep_lookup_self (l : Doc) (k v : String) :
    (if hasKey l k then l else l ++ [(k, v)]).lookup k =
      (if hasKey l k then l.lookup k else some v) := by
  split
  · rfl
  · next h =>
    exact lookup_append_single_of_none v
      (Option.not_isSome_iff_eq_none.mp (by simpa [hasKey] using h))

/-- A default-filling step preserves the lookup of every key already
present. -/
lemma fillStep_lookup_of_hasKey (l : Doc) (k k' v : String)
    (hk : hasKey l k' = true) :
    (if hasKey l k then l else l ++ [(k, v)]).lookup k' = l.lookup k' := by
  by_cases he : k' = k
  · subst he
    rw [if_pos hk]
  · exact fillStep_lookup_ne l k k' v he

/-- A default-filling step preserves key presence. -/
lemma fillStep_hasKey_of_hasKey (l : Doc) (k k' v : String)
    (hk : hasKey l k' = true) :
    hasKey (if hasKey l k then l else l ++ [(k, v)]) k' = true := by
  show ((if hasKey l k then l else l ++ [(k, v)]).lookup k').isSome = true
  rw [fillStep_lookup_of_hasKey l k k' v hk]
  exact hk

/-- A default-filling step for a different key does not affect presence. -/
lemma fillStep_hasKey_ne (l : Doc) (k k' v : String) (h : k' ≠ k) :
    hasKey (if hasKey l k then l else l ++ [(k, v)]) k' = hasKey l k' := by
  show ((if hasKey l k then l else l ++ [(k, v)]).lookup k').isSome = (l.lookup k').isSome
  rw [fillStep_lookup_ne l k k' v h]

/-- C10: `store_finding` rejects an empty finding and a finding missing any
of the five required fields; otherwise it indexes the document and returns
its id, filling `id`, `timestamp` and `status = "pending_review"` only for
the fields the caller did not supply, and preserving every caller-supplied
field unchanged. -/
theorem store_finding_spec (finding : Doc) (freshId nowTs : String) :
    (finding = [] →
      store_finding finding freshId nowTs true = Except.error "Finding cannot be empty") ∧
    ((∃ f ∈ requiredFields, hasKey finding f = false) →
      ∀ ok, ∃ msg, store_finding finding freshId nowTs ok = Except.error msg) ∧
    (finding ≠ [] → (∀ f ∈ requiredFields, hasKey finding f = true) →
      ∃ doc, store_finding finding freshId nowTs true =
          Except.ok (doc, (doc.lookup "id").getD "") ∧
        doc.lookup "id" =
          (if hasKey finding "id" then finding.lookup "id" else some freshId) ∧
        doc.lookup "timestamp" =
          (if hasKey finding "timestamp" then finding.lookup "timestamp" else some nowTs) ∧
        doc.lookup "status" =
          (if hasKey finding "status" then finding.lookup "status" else some "pending_review") ∧
        (∀ k, hasKey finding k = true → doc.lookup k = finding.lookup k)) := by
  refine ⟨?_, ?_, ?_⟩
  · intro h
    subst h
    rfl
  · intro hmiss ok
    have hfind : (requiredFields.find? (fun f => ! hasKey finding f)).isSome := by
      rw [List.find?_isSome]
      obtain ⟨f, hf, hk⟩ := hmiss
      exact ⟨f, hf, by simp [hk]⟩
    unfold store_finding
    by_cases he : finding.isEmpty
    · simp [he]
    · rw [if_neg (by simpa using he)]
      obtain ⟨f, hsome⟩ := Option.isSome_iff_exists.mp hfind
      rw [hsome]
      exact ⟨_, rfl⟩
  · intro hne hall
    have hfind : requiredFields.find? (fun f => ! hasKey finding f) = none := by
      rw [List.find?_eq_none]
      intro f hf
      simp [hall f hf]
    unfold store_finding
    rw [if_neg (by simpa using hne), hfind]
    set f1 := if hasKey finding "id" then finding else finding ++ [("id", freshId)] with hf1
    set f2 := if hasKey f1 "timestamp" then f1 else f1 ++ [("timestamp", nowTs)] with hf2
    set f3 := if hasKey f2 "status" then f2 else f2 ++ [("status", "pending_review")] with hf3
    have lid1 : f1.lookup "id" =
        (if hasKey finding "id" then finding.lookup "id" else some freshId) := by
      rw [hf1]
      exact fillStep_lookup_self finding "id" freshId
    have hid1 : hasKey f1 "id" = true := by
      unfold hasKey
      rw [lid1]
      split
      · next h => simpa [hasKey] using h
      · rfl
    have lid3 : f3.lookup "id" =
        (if hasKey finding "id" then finding.lookup "id" else some freshId) := by
      rw [hf3, hf2,
        fillStep_lookup_ne f2 "status" "id" "pending_review" (by decide),
        fillStep_lookup_ne f1 "timestamp" "id" nowTs (by decide), lid1]
    have hts1 : hasKey f1 "timestamp" = hasKey finding "timestamp" := by
      rw [hf1]
      exact fillStep_hasKey_ne finding "id" "timestamp" freshId (by decide)
    have lts3 : f3.lookup "timestamp" =
        (if hasKey finding "timestamp" then finding.lookup "timestamp" else some nowTs) := by
      rw [hf3, fillStep_lookup_ne f2 "status" "timestamp" "pending_review" (by decide),
        hf2, fillStep_lookup_self f1 "timestamp" nowTs, hts1, hf1]
      split
      · next h =>
        exact fillStep_lookup_ne finding "id" "timestamp" freshId (by decide)
      · rfl
    have hst2 : hasKey f2 "status" = hasKey finding "status" := by
      rw [hf2, fillStep_hasKey_ne f1 "timestamp" "status" nowTs (by decide), hf1,
        fillStep_hasKey_ne finding "id" "status" freshId (by decide)]
    have lst3 : f3.lookup "status" =
        (if hasKey finding "status" then finding.lookup "status" else some "pending_review") := by
      rw [hf3, fillStep_lookup_self f2 "status" "pending_review", hst2]
      split
      · next h =>
        rw [hf2, fillStep_lookup_ne f1 "timestamp" "status" nowTs (by decide), hf1,
          fillStep_lookup_ne finding "id" "status" freshId (by decide)]
      · rfl
    have keepAll : ∀ k, hasKey finding k = true → f3.lookup k = finding.lookup k := by
      intro k hk
      have k1 : f1.lookup k = finding.lookup k := by
        rw [hf1]
        exact fillStep_lookup_of_hasKey finding "id" k freshId hk
      have hk1 : hasKey f1 k = true := by
        unfold hasKey
        rw [k1]
        exact hk
      have k2 : f2.lookup k = f1.lookup k := by
        rw [hf2]
        exact fillStep_lookup_of_hasKey f1 "timestamp" k nowTs hk1
      have hk2 : hasKey f2 k = true := by
        unfold hasKey
        rw [k2]
        exact hk1
      have k3 : f3.lookup k = f2.lookup k := by
        rw [hf3]
        exact fillStep_lookup_of_hasKey f2 "status" k "pending_review" hk2
      rw [k3, k2, k1]
    exact ⟨f3, rfl, lid3, lts3, lst3, keepAll⟩

/-- Witness for C10: a complete finding with a caller-supplied status is
stored with a generated id, a generated timestamp and the supplied status
intact. -/
theorem store_finding_spec_witness :
    ∃ doc,
      store_finding
        [("agent_id", "agent-1"), ("finding_type", "incident"), ("severity", "high"),
         ("title", "t"), ("description", "d"), ("status", "approved")]
        "uuid-1" "ts-1" true =
        Except.ok (doc, (doc.lookup "id").getD "") ∧
      doc.lookup "id" =
        (if hasKey
            [("agent_id", "agent-1"), ("finding_type", "incident"), ("severity", "high"),
             ("title", "t"), ("description", "d"), ("status", "approved")] "id"
         then List.lookup "id"
            [("agent_id", "agent-1"), ("finding_type", "incident"), ("severity", "high"),
             ("title", "t"), ("description", "d"), ("status", "approved")]
         else some "uuid-1") ∧
      doc.lookup "timestamp" =
        (if hasKey
            [("agent_id", "agent-1"), ("finding_type", "incident"), ("severity", "high"),
             ("title", "t"), ("description", "d"), ("status", "approved")] "timestamp"
         then List.lookup "timestamp"
            [("agent_id", "agent-1"), ("finding_type", "incident"), ("severity", "high"),
             ("title", "t"), ("description", "d"), ("status", "approved")]
         else some "ts-1") ∧
      doc.lookup "status" =
        (if hasKey
            [("agent_id", "agent-1"), ("finding_type", "incident"), ("severity", "high"),
             ("title", "t"), ("description", "d"), ("status", "approved")] "status"
         then List.lookup "status"
            [("agent_id", "agent-1"), ("finding_type", "incident"), ("severity", "high"),
             ("title", "t"), ("description", "d"), ("status", "approved")]
         else some "pending_review") ∧
      (∀ k, hasKey
          [("agent_id", "agent-1"), ("finding_type", "incident"), ("severity", "high"),
           ("title", "t"), ("description", "d"), ("status", "approved")] k = true →
        doc.lookup k = List.lookup k
          [("agent_id", "agent-1"), ("finding_type", "incident"), ("severity", "high"),
           ("title", "t"), ("description", "d"), ("status", "approved")]) :=
  (store_finding_spec
    [("agent_id", "agent-1"), ("finding_type", "incident"), ("severity", "high"),
     ("title", "t"), ("description", "d"), ("status", "approved")]
    "uuid-1" "ts-1").2.2 (by decide) (by decide)

/-! ## C8: baseline window and averaging -/

/-- C8: the baseline aggregation filters on ERROR level over the trailing
`days`-day window that ends exactly one day before now; the average per day
divides the total error count by the number of day buckets that actually
contain data (not by `days`), with per-hour and per-minute derived by
dividing by 24 and 60; and an empty bucket list yields the all-zero
baseline. -/
theorem baseline_window_and_average (now : Int) (days : Nat)
    (buckets : List (Int × Nat)) :
    (baselineQuery now days).lte = now - secondsPerDay ∧
    (baselineQuery now days).gte = now - secondsPerDay - (days : Int) * secondsPerDay ∧
    (baselineQuery now days).level = "ERROR" ∧
    (baselineQuery now days).interval = "day" ∧
    (buckets = [] → baselineFromBuckets buckets = ⟨0, 0, 0⟩) ∧
    (buckets ≠ [] →
      (baselineFromBuckets buckets).avg_per_day =
        (((buckets.map (fun b => b.2)).sum : Nat) : ℚ) / ((buckets.length : Nat) : ℚ) ∧
      (baselineFromBuckets buckets).avg_per_hour =
        (baselineFromBuckets buckets).avg_per_day / 24 ∧
      (baselineFromBuckets buckets).avg_per_minute =
        (baselineFromBuckets buckets).avg_per_hour / 60) := by
  refine ⟨rfl, rfl, rfl, rfl, ?_, ?_⟩
  · intro h
    subst h
    rfl
  · intro h
    have hne : buckets.isEmpty = false := by
      simpa [List.isEmpty_iff] using h
    have hpos : buckets.length > 0 := List.length_pos.mpr h
    unfold baselineFromBuckets
    rw [hne]
    refine ⟨?_, ?_, ?_⟩ <;> simp [hpos]

/-- Witness for C8 at concrete inputs: the empty response gives the
all-zero baseline, and two buckets of 5 and 7 errors average to 6 per
day. -/
theorem baseline_window_and_average_witness :
    baselineFromBuckets [] = ⟨0, 0, 0⟩ ∧
    (baselineFromBuckets [(0, 5), (1, 7)]).avg_per_day =
      ((((([(0, 5), (1, 7)] : List (Int × Nat)).map (fun b => b.2)).sum : Nat)) : ℚ) /
        ((([(0, 5), (1, 7)] : List (Int × Nat)).length : Nat) : ℚ) :=
  ⟨(baseline_window_and_average 0 7 []).2.2.2.2.1 rfl,
   ((baseline_window_and_average 0 7 [(0, 5), (1, 7)]).2.2.2.2.2 (by decide)).1⟩

/-! ## Lifecycle lemmas and concrete scenarios (C1-C4) -/

/-- An environment in which every external call succeeds on its first
attempt. -/
def allOkEnv : Env :=
  ⟨true, [true], true, [true], true, "remediation boom", "remediation done",
   [true], [true], 7⟩

/-- A finding still awaiting review. -/
def pendingFinding : Finding := { status := "pending_review" }

/-- A finding whose remediation already ran. -/
def processedFinding : Finding := { status := "processed" }

/-- A finding a human already rejected. -/
def rejectedFinding : Finding := { status := "rejected" }

/-- The already-handled guard: when the status read succeeds and observes
`approved` or `processed`, the handler answers with the no-op page, leaves
the document untouched and never reaches the execution phase. -/
lemma transition_guard (f : Finding) (a : Bool) (env : Env)
    (h : env.readOk = true) (hs : f.status = "approved" ∨ f.status = "processed") :
    transition f a env = ⟨TResult.alreadyHandled f.status, f, 0⟩ := by
  unfold transition
  rw [if_pos ⟨h, hs⟩]

/-- A single handler invocation calls the remediation agent at most once. -/
lemma transition_remediations_le_one (f : Finding) (a : Bool) (env : Env) :
    (transition f a env).remediations ≤ 1 := by
  unfold transition execPhase
  split_ifs <;> simp

/-- `transition` consults its environment only through the listed
observations; environments agreeing on them produce identical outcomes. -/
lemma transition_congr (f : Finding) (a : Bool) (e1 e2 : Env)
    (h1 : e1.readOk = e2.readOk)
    (h2 : retrySucceeds e1.firstUpdate updateRetryBudget =
          retrySucceeds e2.firstUpdate updateRetryBudget)
    (h3 : e1.execReadOk = e2.execReadOk)
    (h4 : e1.procUpdate.headD false = e2.procUpdate.headD false)
    (h5 : e1.remediationOk = e2.remediationOk)
    (h6 : e1.remediationErr = e2.remediationErr)
    (h7 : e1.remediationResponse = e2.remediationResponse)
    (h8 : e1.completeUpdate.headD false = e2.completeUpdate.headD false)
    (h9 : e1.failUpdate.headD false = e2.failUpdate.headD false)
    (h10 : e1.now = e2.now) :
    transition f a e1 = transition f a e2 := by
  unfold transition execPhase
  rw [h1, h2, h3, h4, h5, h6, h7, h8, h9, h10]

/-- Attempt outcomes beyond the first `updateRetryBudget` are never
consulted. -/
lemma retrySucceeds_append (l rest : List Bool)
    (h : updateRetryBudget ≤ l.length) :
    retrySucceeds (l ++ rest) updateRetryBudget =
      retrySucceeds l updateRetryBudget := by
  unfold retrySucceeds
  rw [List.take_append_of_le_length h]

/-! ## C1: idempotence of the already-handled guard -/

/-- C1 counterexample: when the initial status read raises, the source
continues the process (smartAssistant.py lines 723-725), so a transition
request on a finding whose status is already `processed` invokes the
remediation collaborator again — the claimed "never re-execute" fails. -/
theorem already_handled_cex :
    processedFinding.status = "processed" ∧
    (transition processedFinding true { allOkEnv with readOk := false }).remediations = 1 ∧
    (transition processedFinding true { allOkEnv with readOk := false }).result ≠
      TResult.alreadyHandled "processed" := by
  refine ⟨rfl, rfl, ?_⟩
  intro h
  exact absurd h (by decide)

/-- C1 (amended): provided the initial status read succeeds, a transition
request observing `approved` or `processed` returns the informational no-op,
leaves the document unchanged and performs no remediation; consequently two
sequential approve calls, of which the second observes `processed`, execute
the remediation side effect at most once. -/
theorem already_handled_noop :
    (∀ (f : Finding) (a : Bool) (env : Env), env.readOk = true →
      (f.status = "approved" ∨ f.status = "processed") →
      transition f a env = ⟨TResult.alreadyHandled f.status, f, 0⟩) ∧
    (∀ (f : Finding) (env1 env2 : Env), env2.readOk = true →
      (transition f true env1).finding.status = "processed" →
      (transition f true env1).remediations +
        (transition (transition f true env1).finding true env2).remediations ≤ 1) := by
  refine ⟨fun f a env h hs => transition_guard f a env h hs, ?_⟩
  intro f env1 env2 h2 hst
  have hsecond := transition_guard (transition f true env1).finding true env2 h2 (Or.inr hst)
  rw [hsecond]
  have hone := transition_remediations_le_one f true env1
  simpa using hone

/-- Witness for C1 at concrete inputs: an approve on a processed finding is
a pure no-op, and approve-then-approve on a pending finding remediates at
most once. -/
theorem already_handled_noop_witness :
    transition processedFinding true allOkEnv =
      ⟨TResult.alreadyHandled processedFinding.status, processedFinding, 0⟩ ∧
    (transition pendingFinding true allOkEnv).remediations +
      (transition (transition pendingFinding true allOkEnv).finding true allOkEnv).remediations ≤ 1 :=
  ⟨already_handled_noop.1 processedFinding true allOkEnv rfl (Or.inr rfl),
   already_handled_noop.2 pendingFinding allOkEnv allOkEnv rfl rfl⟩

/-! ## C2: outcome of the execution phase -/

/-- An all-success environment except that both post-approval status
updates hit a conflict (each is attempted once and the failure is
swallowed, smartAssistant.py lines 800-802 and 839-841). -/
def stuckEnv : Env := { allOkEnv with procUpdate := [false], completeUpdate := [false] }

/-- C2 counterexample: an approve invocation that reaches the execution
phase (the remediation agent runs, and succeeds) can still leave the
finding in `approved` when the follow-up conditional updates fail, because
those updates are single attempts whose failures are swallowed. -/
theorem execution_outcome_cex :
    (transition pendingFinding true stuckEnv).remediations = 1 ∧
    (transition pendingFinding true stuckEnv).finding.status = "approved" :=
  ⟨rfl, rfl⟩

/-- C2 (amended): for an approve invocation that reaches the execution
phase, provided the follow-up conditional updates succeed (the code
attempts each exactly once and swallows failures): a remediation exception
ends in `failed` with the error detail and failure time recorded; a
successful remediation ends in `processed` with the completion time and
agent response recorded; and in both cases the finding does not remain in
`approved`. -/
theorem execution_outcome (f : Finding) (env : Env)
    (hg : ¬ (env.readOk = true ∧ (f.status = "approved" ∨ f.status = "processed")))
    (hu : retrySucceeds env.firstUpdate updateRetryBudget = true)
    (hr : env.execReadOk = true)
    (hp : env.procUpdate.headD false = true)
    (hc : env.completeUpdate.headD false = true)
    (hf : env.failUpdate.headD false = true) :
    (env.remediationOk = false →
      (transition f true env).finding.status = "failed" ∧
      (transition f true env).finding.error_message = some env.remediationErr ∧
      (transition f true env).finding.failed_at = some env.now) ∧
    (env.remediationOk = true →
      (transition f true env).finding.status = "processed" ∧
      (transition f true env).finding.completed_at = some env.now ∧
      (transition f true env).finding.action_response = some env.remediationResponse) ∧
    (transition f true env).finding.status ≠ "approved" ∧
    (transition f true env).remediations = 1 := by
  have hp' : env.procUpdate.head?.getD false = true := by simpa using hp
  have hc' : env.completeUpdate.head?.getD false = true := by simpa using hc
  have hf' : env.failUpdate.head?.getD false = true := by simpa using hf
  cases hrem : env.remediationOk <;>
  · unfold transition execPhase
    rw [if_neg hg, if_pos hu]
    simp [hr, hp', hc', hf', hrem]

/-- Witness for C2 at a concrete input: with a failing remediation agent
and successful updates, a pending finding ends in `failed` with the error
recorded. -/
theorem execution_outcome_witness :
    (transition pendingFinding true { allOkEnv with remediationOk := false }).finding.status
        = "failed" ∧
    (transition pendingFinding true { allOkEnv with remediationOk := false }).finding.error_message
        = some "remediation boom" ∧
    (transition pendingFinding true { allOkEnv with remediationOk := false }).finding.status
        ≠ "approved" :=
  have h := execution_outcome pendingFinding { allOkEnv with remediationOk := false }
    (by decide) rfl rfl rfl rfl rfl
  ⟨(h.1 rfl).1, (h.1 rfl).2.1, h.2.2.1⟩

/-! ## C3: terminality of reached states -/

/-- C3 counterexample: the guard only blocks `approved` and `processed`
(smartAssistant.py line 698); a finding that has reached `rejected` is
re-approved by a later approve request, executes remediation and moves to
`processed` — so `rejected` is not terminal. -/
theorem terminal_states_cex :
    rejectedFinding.status = "rejected" ∧
    (transition rejectedFinding true allOkEnv).finding.status = "processed" ∧
    (transition rejectedFinding true allOkEnv).remediations = 1 :=
  ⟨rfl, rfl, rfl⟩

/-- C3 (amended): only `approved` and `processed` block further
transitions: provided every invocation's initial status read succeeds, a
finding observed in `approved` or `processed` is never changed again by any
sequence of transition requests; `rejected` and `failed` are not terminal
in the code. -/
theorem terminal_states (f : Finding) (steps : List (Bool × Env))
    (hr : ∀ s ∈ steps, s.2.readOk = true)
    (hs : f.status = "approved" ∨ f.status = "processed") :
    runSeq f steps = f := by
  induction steps with
  | nil => rfl
  | cons s rest ih =>
    obtain ⟨a, e⟩ := s
    have hg := transition_guard f a e (hr (a, e) (List.mem_cons_self _ _)) hs
    show runSeq (transition f a e).finding rest = f
    rw [hg]
    exact ih fun s hsm => hr s (List.mem_cons_of_mem _ hsm)

/-- Witness for C3 at a concrete input: a processed finding survives an
approve followed by a reject unchanged. -/
theorem terminal_states_witness :
    runSeq processedFinding [(true, allOkEnv), (false, allOkEnv)] = processedFinding :=
  terminal_states processedFinding [(true, allOkEnv), (false, allOkEnv)]
    (by decide) (Or.inr rfl)

/-! ## C4: conflict-retry discipline -/

/-- An environment in which the post-approval updates fail once but would
succeed on a second attempt — a retrying implementation recovers, the
single-attempt code does not. -/
def secondTryEnv : Env :=
  { allOkEnv with procUpdate := [false, true], completeUpdate := [false, true] }

/-- C4 counterexample: the retry-on-conflict discipline does not apply to
the subsequent conditional updates: where a second attempt would succeed,
the code (one attempt per site, failures swallowed) leaves the finding in
`approved`, while the spec's uniform-retry variant reaches `processed` with
the completion timestamp. -/
theorem retry_discipline_cex :
    (transition pendingFinding true secondTryEnv).finding.status = "approved" ∧
    (transitionSpecRetry pendingFinding true secondTryEnv).finding.status = "processed" ∧
    (transitionSpecRetry pendingFinding true secondTryEnv).finding.completed_at = some 7 :=
  ⟨rfl, rfl, rfl⟩

/-- C4 (amended): the first conditional update (status, feedback, approved
flag) is retried on conflict up to a budget of 3 attempts and exhausting
the budget fails the invocation with an error visible to the caller, the
document unchanged; attempt outcomes beyond the budget are never consulted.
The subsequent conditional updates to `processed` or `failed` are instead
attempted exactly once — only the first attempt outcome of each site is
consulted — and their failures are swallowed: the caller still sees the
success page. -/
theorem retry_discipline :
    (∀ (f : Finding) (a : Bool) (env : Env),
      ¬ (env.readOk = true ∧ (f.status = "approved" ∨ f.status = "processed")) →
      retrySucceeds env.firstUpdate updateRetryBudget = false →
      transition f a env = ⟨TResult.fatal, f, 0⟩) ∧
    (∀ (f : Finding) (a : Bool) (env : Env) (rest : List Bool),
      updateRetryBudget ≤ env.firstUpdate.length →
      transition f a { env with firstUpdate := env.firstUpdate ++ rest } =
        transition f a env) ∧
    (∀ (f : Finding) (a : Bool) (env : Env) (t1 t2 t3 : List Bool),
      transition f a { env with
          procUpdate := env.procUpdate.headD false :: t1,
          completeUpdate := env.completeUpdate.headD false :: t2,
          failUpdate := env.failUpdate.headD false :: t3 } =
        transition f a env) ∧
    (∀ (f : Finding) (env : Env),
      ¬ (env.readOk = true ∧ (f.status = "approved" ∨ f.status = "processed")) →
      retrySucceeds env.firstUpdate updateRetryBudget = true →
      (transition f true env).result = TResult.done true) := by
  refine ⟨?_, ?_, ?_, ?_⟩
  · intro f a env hg hu
    unfold transition
    rw [if_neg hg, if_neg (by simp [hu])]
  · intro f a env rest h
    exact transition_congr f a _ env rfl (retrySucceeds_append env.firstUpdate rest h)
      rfl rfl rfl rfl rfl rfl rfl rfl
  · intro f a env t1 t2 t3
    exact transition_congr f a _ env rfl rfl rfl rfl rfl rfl rfl rfl rfl rfl
  · intro f env hg hu
    unfold transition
    rw [if_neg hg, if_pos hu]
    rfl

/-- Witness for C4 at concrete inputs: three failed attempts are fatal and
leave the document unchanged; a fourth attempt outcome is irrelevant; tails
of the single-attempt sites are irrelevant; and a successful update shows
the caller the success page. -/
theorem retry_discipline_witness :
    transition pendingFinding true { allOkEnv with firstUpdate := [false, false, false] } =
      ⟨TResult.fatal, pendingFinding, 0⟩ ∧
    transition pendingFinding true
        { allOkEnv with firstUpdate := [false, false, false] ++ [true] } =
      transition pendingFinding true { allOkEnv with firstUpdate := [false, false, false] } ∧
    transition pendingFinding true
        { allOkEnv with
            procUpdate := ([true] : List Bool).headD false :: [false],
            completeUpdate := ([true] : List Bool).headD false :: [false],
            failUpdate := ([true] : List Bool).headD false :: [false] } =
      transition pendingFinding true allOkEnv ∧
    (transition pendingFinding true allOkEnv).result = TResult.done true := by
  refine ⟨retry_discipline.1 pendingFinding true _ (by decide) rfl, ?_, ?_,
    retry_discipline.2.2.2 pendingFinding allOkEnv (by decide) rfl⟩
  · exact retry_discipline.2.1 pendingFinding true
      { allOkEnv with firstUpdate := [false, false, false] } [true] (by decide)
  · exact retry_discipline.2.2.1 pendingFinding true allOkEnv [false] [false] [false]

/-! ## C5: root-cause / cascading-failure partition -/

/-- The record built for a root cause (`correlate_errors.py` lines 213-220). -/
def mkRoot (g : Graph) (e : ServiceErr) : RootCause :=
  ⟨e.name, e.error_count, e.error_types, dependents g e.name⟩

/-- The record built for a cascading failure (`correlate_errors.py` lines
199-210). -/
def mkCasc (g : Graph) (probs : List ServiceErr) (e : ServiceErr) : CascadingFailure :=
  ⟨e.name, e.error_count,
    (failingDeps g probs e.name).map
      (fun d => let p := lookupErr probs d; ⟨d, p.error_count, p.error_types⟩)⟩

/-- `classifyOne` in terms of the two record builders. -/
lemma classifyOne_eq (g : Graph) (probs : List ServiceErr) (e : ServiceErr) :
    classifyOne g probs e =
      if (failingDeps g probs e.name).isEmpty then Sum.inl (mkRoot g e)
      else Sum.inr (mkCasc g probs e) := rfl

/-- The classification loop is a partition: unrolling the fold shows the
two result lists are the filtered-and-mapped problematic services. -/
lemma classify_go (g : Graph) (probs : List ServiceErr) (l : List ServiceErr)
    (acc : List RootCause × List CascadingFailure) :
    l.foldl (fun acc e =>
      match classifyOne g probs e with
      | Sum.inl r => (acc.1 ++ [r], acc.2)
      | Sum.inr c => (acc.1, acc.2 ++ [c])) acc =
    (acc.1 ++ (l.filter (fun e => (failingDeps g probs e.name).isEmpty)).map (mkRoot g),
     acc.2 ++ (l.filter (fun e => ! (failingDeps g probs e.name).isEmpty)).map (mkCasc g probs)) := by
  induction l generalizing acc with
  | nil => simp
  | cons e t ih =>
    rw [List.foldl_cons]
    by_cases h : (failingDeps g probs e.name).isEmpty
    · have hcl : classifyOne g probs e = Sum.inl (mkRoot g e) := by
        rw [classifyOne_eq, if_pos h]
      rw [hcl]
      rw [ih]
      simp [h, List.filter_cons]
    · have hcl : classifyOne g probs e = Sum.inr (mkCasc g probs e) := by
        rw [classifyOne_eq, if_neg h]
      rw [hcl]
      rw [ih]
      simp [h, List.filter_cons]

/-- `classify` in closed form. -/
lemma classify_eq (g : Graph) (probs : List ServiceErr) :
    classify g probs =
    ((probs.filter (fun e => (failingDeps g probs e.name).isEmpty)).map (mkRoot g),
     (probs.filter (fun e => ! (failingDeps g probs e.name).isEmpty)).map (mkCasc g probs)) := by
  unfold classify
  rw [classify_go]
  simp

/-- `failing_deps` is empty exactly when no transitive dependency is
problematic. -/
lemma failingDeps_isEmpty_iff (g : Graph) (probs : List ServiceErr) (s : String) :
    (failingDeps g probs s).isEmpty = true ↔
      ¬ ∃ d ∈ descendants g s, d ∈ probNames probs := by
  rw [List.isEmpty_iff]
  unfold failingDeps
  rw [List.filter_eq_nil_iff]
  simp

/-- C5: every problematic service lands in exactly one of the two lists,
and it is a cascading failure iff one of its transitive dependencies is
also problematic; non-problematic services appear in neither list; and a
root cause is recorded together with the services whose dependency list
contains it. -/
theorem classification_partition (g : Graph) (probs : List ServiceErr) (s : String) :
    (s ∈ probNames probs →
      ((s ∈ (classify g probs).2.map (fun c => c.service) ↔
          ∃ d ∈ descendants g s, d ∈ probNames probs) ∧
       (s ∈ (classify g probs).1.map (fun r => r.service) ↔
          ¬ ∃ d ∈ descendants g s, d ∈ probNames probs) ∧
       (s ∈ (classify g probs).1.map (fun r => r.service) ∨
        s ∈ (classify g probs).2.map (fun c => c.service)) ∧
       ¬ (s ∈ (classify g probs).1.map (fun r => r.service) ∧
          s ∈ (classify g probs).2.map (fun c => c.service)))) ∧
    (s ∉ probNames probs →
      s ∉ (classify g probs).1.map (fun r => r.service) ∧
      s ∉ (classify g probs).2.map (fun c => c.service)) ∧
    (∀ r ∈ (classify g probs).1, r.dependent_services = dependents g r.service) := by
  have hroot : s ∈ (classify g probs).1.map (fun r => r.service) ↔
      s ∈ probNames probs ∧ (failingDeps g probs s).isEmpty = true := by
    rw [classify_eq]
    simp only [List.map_map, List.mem_map, List.mem_filter, Function.comp, mkRoot,
      probNames]
    constructor
    · rintro ⟨e, ⟨he, hcond⟩, hname⟩
      exact ⟨⟨e, he, hname⟩, by rw [← hname]; exact hcond⟩
    · rintro ⟨⟨e, he, hname⟩, hcond⟩
      exact ⟨e, ⟨he, by rw [hname]; exact hcond⟩, hname⟩
  have hcasc : s ∈ (classify g probs).2.map (fun c => c.service) ↔
      s ∈ probNames probs ∧ ¬ (failingDeps g probs s).isEmpty = true := by
    rw [classify_eq]
    simp only [List.map_map, List.mem_map, List.mem_filter, Function.comp, mkCasc,
      probNames, Bool.not_eq_true', ← Bool.not_eq_true]
    constructor
    · rintro ⟨e, ⟨he, hcond⟩, hname⟩
      exact ⟨⟨e, he, hname⟩, by rw [← hname]; exact hcond⟩
    · rintro ⟨⟨e, he, hname⟩, hcond⟩
      exact ⟨e, ⟨he, by rw [hname]; exact hcond⟩, hname⟩
  refine ⟨?_, ?_, ?_⟩
  · intro hin
    have hiff := failingDeps_isEmpty_iff g probs s
    refine ⟨?_, ?_, ?_, ?_⟩
    · rw [hcasc]
      constructor
      · rintro ⟨-, hne⟩
        exact not_not.mp (fun hno => hne (hiff.mpr hno))
      · intro hex
        exact ⟨hin, fun hemp => (hiff.mp hemp) hex⟩
    · rw [hroot]
      constructor
      · rintro ⟨-, hemp⟩
        exact hiff.mp hemp
      · intro hno
        exact ⟨hin, hiff.mpr hno⟩
    · by_cases hemp : (failingDeps g probs s).isEmpty = true
      · exact Or.inl (hroot.mpr ⟨hin, hemp⟩)
      · exact Or.inr (hcasc.mpr ⟨hin, hemp⟩)
    · rintro ⟨hr, hc⟩
      exact (hcasc.mp hc).2 (hroot.mp hr).2
  · intro hout
    exact ⟨fun hr => hout (hroot.mp hr).1, fun hc => hout (hcasc.mp hc).1⟩
  · intro r hr
    rw [classify_eq] at hr
    simp only [List.mem_map, List.mem_filter] at hr
    obtain ⟨e, -, he⟩ := hr
    rw [← he]
    rfl

/-- The configuration and error data of the end-to-end scenario in the
spec: `A` depends on `B`, both exceed the threshold. -/
def demoGraph : Graph := [("A", ["B"]), ("B", [])]

/-- Error data for the scenario: A has 8 errors, B has 12. -/
def demoErrs : List ServiceErr := [⟨"A", 8, []⟩, ⟨"B", 12, []⟩]

/-- Witness for C5 at the spec's end-to-end scenario: with threshold 5,
`A` (which depends on problematic `B`) is classified into exactly one list
and is a cascading failure, and `B` is a root cause. -/
theorem classification_partition_witness :
    (("A" ∈ (classify demoGraph (problematic 5 demoErrs)).1.map (fun r => r.service) ∨
      "A" ∈ (classify demoGraph (problematic 5 demoErrs)).2.map (fun c => c.service)) ∧
     ¬ ("A" ∈ (classify demoGraph (problematic 5 demoErrs)).1.map (fun r => r.service) ∧
        "A" ∈ (classify demoGraph (problematic 5 demoErrs)).2.map (fun c => c.service))) ∧
    ("B" ∈ (classify demoGraph (problematic 5 demoErrs)).1.map (fun r => r.service) ↔
      ¬ ∃ d ∈ descendants demoGraph "B", d ∈ probNames (problematic 5 demoErrs)) :=
  ⟨⟨((classification_partition demoGraph (problematic 5 demoErrs) "A").1 (by decide)).2.2.1,
    ((classification_partition demoGraph (problematic 5 demoErrs) "A").1 (by decide)).2.2.2⟩,
   ((classification_partition demoGraph (problematic 5 demoErrs) "B").1 (by decide)).2.1⟩

/-! ## C9: cycle-safe termination of the descendant traversal

`iterExpand` runs the traversal for a fixed number of rounds; the
termination content is that `(graphNodes g).length` rounds always reach the
fixpoint, so extra rounds never change the result — on every graph,
cyclic configurations and unknown dependency names included. -/

/-- The visited list only ever grows by appending. -/
lemma foldl_insertNew_append (ds : List String) :
    ∀ acc, ∃ r, ds.foldl insertNew acc = acc ++ r := by
  induction ds with
  | nil => exact fun acc => ⟨[], by simp⟩
  | cons d t ih =>
    intro acc
    show ∃ r, t.foldl insertNew (insertNew acc d) = acc ++ r
    by_cases h : d ∈ acc
    · have hstep : insertNew acc d = acc := by
        unfold insertNew
        rw [if_pos h]
      rw [hstep]
      exact ih acc
    · have hstep : insertNew acc d = acc ++ [d] := by
        unfold insertNew
        rw [if_neg h]
      rw [hstep]
      obtain ⟨r, hr⟩ := ih (acc ++ [d])
      exact ⟨[d] ++ r, by rw [hr, List.append_assoc]⟩

/-- One traversal round only ever appends to the visited list. -/
lemma expand_append (g : Graph) (v : List String) :
    ∃ r, expand g v = v ++ r := by
  unfold expand
  have hgen : ∀ (l acc : List String),
      ∃ r, l.foldl (fun acc x => (neighbors g x).foldl insertNew acc) acc = acc ++ r := by
    intro l
    induction l with
    | nil => exact fun acc => ⟨[], by simp⟩
    | cons x t ih =>
      intro acc
      rw [List.foldl_cons]
      obtain ⟨r1, hr1⟩ := foldl_insertNew_append (neighbors g x) acc
      obtain ⟨r2, hr2⟩ := ih ((neighbors g x).foldl insertNew acc)
      exact ⟨r1 ++ r2, by rw [hr2, hr1, List.append_assoc]⟩
  exact hgen v v

/-- The visited-set discipline keeps the visited list duplicate-free. -/
lemma insertNew_nodup {acc : List String} (d : String) (h : acc.Nodup) :
    (insertNew acc d).Nodup := by
  unfold insertNew
  split
  · exact h
  · next hd =>
    refine List.Nodup.append h (List.nodup_singleton d) ?_
    intro a ha hmem
    rw [List.mem_singleton] at hmem
    subst hmem
    exact hd ha

/-- Folding node insertions preserves duplicate-freeness. -/
lemma foldl_insertNew_nodup (ds : List String) :
    ∀ acc, acc.Nodup → (ds.foldl insertNew acc).Nodup := by
  induction ds with
  | nil => exact fun acc h => h
  | cons d t ih => exact fun acc h => ih (insertNew acc d) (insertNew_nodup d h)

/-- A traversal round preserves duplicate-freeness. -/
lemma expand_nodup (g : Graph) (v : List String) (h : v.Nodup) :
    (expand g v).Nodup := by
  unfold expand
  have hgen : ∀ (l acc : List String), acc.Nodup →
      (l.foldl (fun acc x => (neighbors g x).foldl insertNew acc) acc).Nodup := by
    intro l
    induction l with
    | nil => exact fun acc h => h
    | cons x t ih =>
      exact fun acc h => ih _ (foldl_insertNew_nodup (neighbors g x) acc h)
  exact hgen v v h

/-- Inserted nodes come from the inserted list or the old visited list. -/
lemma foldl_insertNew_subset (ds : List String) {N : List String} :
    ∀ acc, (∀ y ∈ acc, y ∈ N) → (∀ d ∈ ds, d ∈ N) →
      ∀ y ∈ ds.foldl insertNew acc, y ∈ N := by
  induction ds with
  | nil => exact fun acc ha _ => ha
  | cons d t ih =>
    intro acc ha hds
    refine ih (insertNew acc d) ?_ (fun x hx => hds x (List.mem_cons_of_mem _ hx))
    intro y hy
    unfold insertNew at hy
    split at hy
    · exact ha y hy
    · rcases List.mem_append.mp hy with h | h
      · exact ha y h
      · rw [List.mem_singleton] at h
        subst h
        exact hds y (List.mem_cons_self _ _)

/-- A traversal round never leaves the node set of the graph. -/
lemma expand_subset_nodes (g : Graph) (v : List String)
    (h : ∀ y ∈ v, y ∈ graphNodes g) :
    ∀ y ∈ expand g v, y ∈ graphNodes g := by
  unfold expand
  have hgen : ∀ (l acc : List String), (∀ y ∈ acc, y ∈ graphNodes g) →
      ∀ y ∈ l.foldl (fun acc x => (neighbors g x).foldl insertNew acc) acc,
        y ∈ graphNodes g := by
    intro l
    induction l with
    | nil => exact fun acc ha => ha
    | cons x t ih =>
      intro acc ha
      rw [List.foldl_cons]
      exact ih _ (foldl_insertNew_subset (neighbors g x) acc ha
        (neighbors_subset_graphNodes g x))
  exact hgen v v h

/-- A fixpoint of `expand` absorbs any further rounds. -/
lemma iterExpand_of_fix (g : Graph) (w : List String)
    (h : expand g w = w) : ∀ k, iterExpand g k w = w
  | 0 => rfl
  | k + 1 => by
    show expand g (iterExpand g k w) = w
    rw [iterExpand_of_fix g w h k]
    exact h

/-- A round that changes the visited list strictly lengthens it. -/
lemma expand_grow (g : Graph) (w : List String) (h : expand g w ≠ w) :
    w.length + 1 ≤ (expand g w).length := by
  obtain ⟨r, hr⟩ := expand_append g w
  cases r with
  | nil => exact absurd (by simpa using hr) h
  | cons a t =>
    rw [hr, List.length_append]
    simp

/-- Each round either has reached the fixpoint or has grown the visited
list by at least one node per round so far. -/
lemma progress_or_fix (g : Graph) (v : List String) :
    ∀ n, expand g (iterExpand g n v) = iterExpand g n v ∨
      v.length + n ≤ (iterExpand g n v).length
  | 0 => Or.inr (by simp [iterExpand])
  | n + 1 => by
    rcases progress_or_fix g v n with h | h
    · left
      have hstep : iterExpand g (n + 1) v = iterExpand g n v := by
        show expand g (iterExpand g n v) = iterExpand g n v
        exact h
      rw [hstep]
      exact h
    · by_cases hfix : expand g (iterExpand g n v) = iterExpand g n v
      · left
        have hstep : iterExpand g (n + 1) v = iterExpand g n v := hfix
        rw [hstep]
        exact hfix
      · right
        have hg := expand_grow g (iterExpand g n v) hfix
        show v.length + (n + 1) ≤ (expand g (iterExpand g n v)).length
        omega

/-- A duplicate-free list of members of `m` is no longer than `m`. -/
lemma nodup_subset_length_le {l m : List String} (hn : l.Nodup)
    (hs : ∀ y ∈ l, y ∈ m) : l.length ≤ m.length := by
  have h1 : l.toFinset.card = l.length := List.toFinset_card_of_nodup hn
  have h2 : l.toFinset ⊆ m.toFinset := by
    intro x hx
    rw [List.mem_toFinset] at hx ⊢
    exact hs x hx
  have h3 := Finset.card_le_card h2
  have h4 : m.toFinset.card ≤ m.length := List.toFinset_card_le m
  omega

/-- Rounds preserve duplicate-freeness. -/
lemma iterExpand_nodup (g : Graph) (v : List String) (h : v.Nodup) :
    ∀ n, (iterExpand g n v).Nodup
  | 0 => h
  | n + 1 => expand_nodup g _ (iterExpand_nodup g v h n)

/-- Rounds stay inside the node set. -/
lemma iterExpand_subset (g : Graph) (v : List String)
    (h : ∀ y ∈ v, y ∈ graphNodes g) :
    ∀ n, ∀ y ∈ iterExpand g n v, y ∈ graphNodes g
  | 0 => h
  | n + 1 => expand_subset_nodes g _ (iterExpand_subset g v h n)

/-- After `(graphNodes g).length` rounds from a node of the graph, the
traversal has reached its fixpoint. -/
lemma reachable_fix (g : Graph) (s : String) (hs : s ∈ graphNodes g) :
    expand g (reachableFrom g s) = reachableFrom g s := by
  unfold reachableFrom
  rcases progress_or_fix g [s] (graphNodes g).length with h | h
  · exact h
  · exfalso
    have hstart : ∀ y ∈ ([s] : List String), y ∈ graphNodes g := by
      intro y hy
      rw [List.mem_singleton] at hy
      subst hy
      exact hs
    have hnd := iterExpand_nodup g [s] (List.nodup_singleton s) (graphNodes g).length
    have hsub := iterExpand_subset g [s] hstart (graphNodes g).length
    have hle := nodup_subset_length_le hnd hsub
    simp only [List.length_singleton] at h
    omega

/-- C9: the visited-set traversal underlying `descendants` stabilises
within `(graphNodes g).length` rounds on every graph — cyclic dependency
configurations included — so extra rounds never change the result; the
returned set is a finite list of graph nodes; a service absent from the
graph (the `NetworkXError` branch) yields the empty list; and the
classification loop completes for every problematic service, placing each
of them in one of the two result lists. -/
theorem descendants_terminates (g : Graph) (s : String) (probs : List ServiceErr) :
    (s ∈ graphNodes g →
      ∀ k, iterExpand g ((graphNodes g).length + k) [s] = reachableFrom g s) ∧
    (∀ x ∈ descendants g s, x ∈ graphNodes g) ∧
    (s ∉ graphNodes g → descendants g s = []) ∧
    (classify g probs).1.length + (classify g probs).2.length = probs.length := by
  refine ⟨?_, ?_, ?_, ?_⟩
  · intro hs k
    induction k with
    | zero => rfl
    | succ k ih =>
      have hstep : (graphNodes g).length + (k + 1) = ((graphNodes g).length + k) + 1 := rfl
      rw [hstep]
      show expand g (iterExpand g ((graphNodes g).length + k) [s]) = reachableFrom g s
      rw [ih]
      exact reachable_fix g s hs
  · intro x hx
    unfold descendants at hx
    split at hx
    · next hs =>
      have hstart : ∀ y ∈ ([s] : List String), y ∈ graphNodes g := by
        intro y hy
        rw [List.mem_singleton] at hy
        subst hy
        exact hs
      exact iterExpand_subset g [s] hstart (graphNodes g).length x
        (List.mem_of_mem_filter hx)
    · simp at hx
  · intro hs
    unfold descendants
    rw [if_neg hs]
  · rw [classify_eq]
    simp only [List.length_map]
    have h := List.length_eq_length_filter_add
      (l := probs) (fun e => (failingDeps g probs e.name).isEmpty)
    omega

/-- A two-node dependency cycle. -/
def cyclicGraph : Graph := [("a", ["b"]), ("b", ["a"])]

/-- Witness for C9 on a concrete cyclic graph: an extra traversal round
changes nothing, the traversal stays inside the node set, and an unknown
service has no descendants. -/
theorem descendants_terminates_witness :
    iterExpand cyclicGraph ((graphNodes cyclicGraph).length + 1) ["a"] =
      reachableFrom cyclicGraph "a" ∧
    "b" ∈ graphNodes cyclicGraph ∧
    descendants cyclicGraph "zzz" = [] :=
  ⟨(descendants_terminates cyclicGraph "a" []).1 (by decide) 1,
   (descendants_terminates cyclicGraph "a" []).2.1 "b" (by decide),
   (descendants_terminates cyclicGraph "zzz" []).2.2.1 (by decide)⟩

end OpsCore
